import Mathlib

/-!
Shallow embedding of the chart component (`src/components/ShieldedPoolChart.tsx`)
and the dashboard export utility (`src/constants/walletsConfig.ts`) of the
zechub-wiki repository, together with theorems settling the specification's
claims about them.

Conventions of the embedding:
* JavaScript `Date` values (`new Date(d.close).valueOf()`) are modelled as
  integers (milliseconds since the epoch), so date arithmetic in the tooltip
  hit-test is exact `Int` arithmetic.
* JavaScript floating-point numbers occurring in the scale computations are
  modelled as rationals (`ℚ`), i.e. with exact real-number semantics.
* The d3 binary search (`bisector(...).left`) and the d3 `nice` domain loop are
  translated loop-for-loop; bounded loops carry an explicit fuel argument that
  matches (for `nice`) or dominates (for the `while (lo < hi)` search, which
  shrinks the interval by at least one per iteration) the number of iterations
  the JavaScript loop performs, so the fuel never runs out on the stated
  domains.
-/

/-- Datum of the shielded-pool series: `close` is the observation date
(modelled as epoch milliseconds, the value of `new Date(d.close).valueOf()`),
`supply` the shielded amount. Mirrors `ShieldedAmountDatum` in
`ShieldedPoolChart.tsx`. -/
structure ShieldedAmountDatum where
  close : Int
  supply : ℚ
deriving Repr, DecidableEq

/-- One step-bounded rendering of d3-array's `bisector(f).left` loop
`while (lo < hi) { mid = (lo + hi) >>> 1; if (f(a[mid]) < x) lo = mid + 1; else hi = mid }`.
The fuel argument only needs to dominate `hi - lo`, since every iteration
shrinks the interval strictly. -/
def bisectLoop (a : List Int) (x : Int) : Nat → Nat → Nat → Nat
  | 0, lo, _ => lo
  | fuel + 1, lo, hi =>
    if lo < hi then
      let mid := (lo + hi) / 2
      if a.getD mid 0 < x then bisectLoop a x fuel (mid + 1) hi
      else bisectLoop a x fuel lo mid
    else lo

/-- d3-array `bisector(f).left a x lo hi` on the list of keys `a`. -/
def bisectLeft (a : List Int) (x : Int) (lo hi : Nat) : Nat :=
  bisectLoop a x (hi - lo) lo hi

/-- The chart's `bisectDate(chartData, x0, 1)`: left bisection on the dates of
the series, with the low cursor starting at 1 as in the source. -/
def bisectDate (chartData : List ShieldedAmountDatum) (x0 : Int) : Nat :=
  bisectLeft (chartData.map (·.close)) x0 1 chartData.length

/-- The tooltip hit-test `handleTooltip` of `ShieldedPoolChart.tsx`, as the
pure selection of the tooltip datum from the series and the inverted pointer
date `x0`:
`index = bisectDate(chartData, x0, 1); d0 = chartData[index-1]; d1 = chartData[index];`
`d = d0; if (d1 && getDate(d1)) d = x0 - getDate(d0) > getDate(d1) - x0 ? d1 : d0`.
Returns `none` exactly when `d0` is `undefined` (empty series), in which case
the JavaScript code would crash reading `d.supply`. -/
def handleTooltip (chartData : List ShieldedAmountDatum) (x0 : Int) :
    Option ShieldedAmountDatum :=
  let index := bisectDate chartData x0
  match chartData.get? (index - 1), chartData.get? index with
  | some d0, some d1 =>
      some (if x0 - d0.close > d1.close - x0 then d1 else d0)
  | some d0, none => some d0
  | none, _ => none

/-- Component state of `ShieldedPoolChart`: the three `useState` hooks
`chartData`, `isLoading`, `error`, plus an instrumentation counter of how many
network requests `fetchShieldedSupplyData` has been started (not part of the
React state; it records the observable "a fetch was issued" events). -/
structure ChartState where
  chartData : List ShieldedAmountDatum
  isLoading : Bool
  error : Option String
  fetchCount : Nat
deriving Repr, DecidableEq

/-- State on first mount: `useState([])`, `useState(false)`, `useState(null)`,
no request issued yet. -/
def initialChartState : ChartState := ⟨[], false, none, 0⟩

/-- One run of the data-loading `useEffect` body:
`if (isLoading) return; if (chartData.length > 0) return; setIsLoading(true); fetchShieldedSupplyData()...`.
When neither guard fires, a new network request is started (counted) and
`isLoading` becomes true. -/
def runEffect (s : ChartState) : ChartState :=
  if s.isLoading then s
  else if s.chartData.length > 0 then s
  else { s with isLoading := true, fetchCount := s.fetchCount + 1 }

/-- Resolution of an in-flight fetch on the success path:
`.then((data) => setChartData(data))` followed by
`.finally(() => setIsLoading(false))`. The `error` state is never cleared. -/
def resolveSuccess (s : ChartState) (data : List ShieldedAmountDatum) : ChartState :=
  { s with chartData := data, isLoading := false }

/-- Resolution of an in-flight fetch on the failure path:
`.catch((error) => setError(error))` followed by
`.finally(() => setIsLoading(false))`. -/
def resolveFailure (s : ChartState) (e : String) : ChartState :=
  { s with error := some e, isLoading := false }

/-- The three return branches of the component body. -/
inductive RenderBranch where
  | loading
  | error
  | chart
deriving Repr, DecidableEq

/-- The branch structure of the component's render:
`if (chartData.length === 0 || isLoading) return <loading/>; if (error) return <error/>; return <chart/>`. -/
def renderBranch (s : ChartState) : RenderBranch :=
  if s.chartData.length = 0 ∨ s.isLoading then .loading
  else if s.error.isSome then .error
  else .chart

/-- The `max(chartData, getShieldedValue) || 0` expression of the source:
d3-array `max` of the supplies, with `undefined` (empty series) collapsed
to `0` by `|| 0` (a numeric maximum of `0` is likewise mapped to `0` by `||`,
which is the same value). -/
def maxSupplyOrZero (chartData : List ShieldedAmountDatum) : ℚ :=
  match chartData.map (·.supply) with
  | [] => 0
  | v :: vs => vs.foldl max v

/-- d3-array `tickIncrement(start, stop, count)` over exact rationals:
`step = (stop - start) / count; power = floor(log10(step)); error = step / 10^power;`
and the returned increment is `factor * 10^power` for `power ≥ 0` or
`-(10^-power) / factor` otherwise, where `factor` is picked by comparing
`error` with `√50`, `√10`, `√2` (compared here as `error² ≥ 50` etc., which is
equivalent since `error > 0`). A non-positive raw step (where the JavaScript
produces a non-finite or zero increment that stops the `nice` loop) is mapped
to the sentinel `0`. -/
def tickIncrement (start stop count : ℚ) : ℚ :=
  let step := (stop - start) / count
  if 0 < step then
    let power : ℤ := Int.log 10 step
    let error : ℚ := step / (10 : ℚ) ^ power
    let factor : ℚ :=
      if 50 ≤ error ^ 2 then 10
      else if 10 ≤ error ^ 2 then 5
      else if 2 ≤ error ^ 2 then 2
      else 1
    if 0 ≤ power then factor * (10 : ℚ) ^ power
    else -((10 : ℚ) ^ (-power)) / factor
  else 0

/-- The `while (maxIter-- > 0)` loop of d3-scale `linear.nice(count)`:
recompute the tick increment; if it stabilized, commit the widened domain;
otherwise floor/ceil the endpoints to multiples of the increment and repeat.
Returns `none` when the loop ends without committing (fuel exhausted or zero
increment), in which case d3 leaves the domain unchanged. -/
def d3niceLoop : Nat → ℚ → ℚ → ℚ → Option ℚ → Option (ℚ × ℚ)
  | 0, _, _, _, _ => none
  | fuel + 1, start, stop, count, prestep =>
    let step := tickIncrement start stop count
    if some step = prestep then some (start, stop)
    else if 0 < step then
      d3niceLoop fuel ((⌊start / step⌋ : ℚ) * step) ((⌈stop / step⌉ : ℚ) * step)
        count (some step)
    else if step < 0 then
      d3niceLoop fuel ((⌈start * step⌉ : ℚ) / step) ((⌊stop * step⌋ : ℚ) / step)
        count (some step)
    else none

/-- d3-scale `linear.nice(count)` on a two-point domain `[start, stop]`:
swap a descending domain, run the bounded loop (`maxIter = 10`), and commit
the widened endpoints only if the loop stabilized. -/
def d3nice (start stop count : ℚ) : ℚ × ℚ :=
  if stop < start then
    match d3niceLoop 10 stop start count none with
    | some (s, t) => (t, s)
    | none => (start, stop)
  else
    match d3niceLoop 10 start stop count none with
    | some (s, t) => (s, t)
    | none => (start, stop)

/-- Domain of `shieldedValueScale` in `ShieldedPoolChart.tsx`:
`domain: [0, (max(chartData, getShieldedValue) || 0) + innerHeight / 3], nice: true`,
where `nice: true` makes visx call `scale.nice()` (d3 default count 10). -/
def shieldedValueScaleDomain (chartData : List ShieldedAmountDatum)
    (innerHeight : ℚ) : ℚ × ℚ :=
  d3nice 0 (maxSupplyOrZero chartData + innerHeight / 3) 10

/-- d3-array `extent(chartData, getDate)`: the minimum and maximum observation
date, `none` for an empty series (where d3 yields `[undefined, undefined]`). -/
def extentDates (chartData : List ShieldedAmountDatum) : Option (Int × Int) :=
  match chartData with
  | [] => none
  | d :: ds => some (ds.foldl (fun p e => (min p.1 e.close, max p.2 e.close))
      (d.close, d.close))

/-- d3's continuous-scale interpolation normalizer
`normalize(a, b) = (b -= a) ? x => (x - a) / b : constant(0.5)`: a degenerate
domain (`b = a`) yields the constant `1/2` rather than dividing by zero. -/
def normalizeApply (a b x : ℚ) : ℚ :=
  if b - a = 0 then 1 / 2 else (x - a) / (b - a)

/-- Application of a two-point continuous scale: normalize into the domain and
interpolate linearly into the range. -/
def continuousScaleApply (d0 d1 r0 r1 x : ℚ) : ℚ :=
  r0 + normalizeApply d0 d1 x * (r1 - r0)

/-- The chart's `dateScale` applied to a date (epoch milliseconds): domain is
the extent of the series dates, range is
`[margin.left, innerWidth + margin.left]`. `none` for an empty series. -/
def dateScaleApply (chartData : List ShieldedAmountDatum)
    (marginLeft innerWidth : ℚ) (t : Int) : Option ℚ :=
  (extentDates chartData).map fun p =>
    continuousScaleApply (p.1 : ℚ) (p.2 : ℚ) marginLeft (innerWidth + marginLeft) (t : ℚ)

/-- Pool identifiers of `PoolsType` in `walletsConfig.ts`. -/
def PoolsType_default : String := "default"

/-- The `sprout` entry of `PoolsType`. -/
def PoolsType_sprout : String := "sprout"

/-- The `sap` entry of `PoolsType` (value `"sapling"`). -/
def PoolsType_sap : String := "sapling"

/-- The `ord` entry of `PoolsType` (value `"orchard"`). -/
def PoolsType_ord : String := "orchard"

/-- Value stored under a pool key of the `poolData` record passed to
`handleSaveToPng`: `{ timestamp: string; supply: number }`. Supplies are
modelled as naturals, on which the default-locale `toLocaleString` grouping
is exact. -/
structure PoolEntry where
  timestamp : String
  supply : Nat
deriving Repr, DecidableEq

/-- Comma insertion of JavaScript's default-locale `Number.toLocaleString` on
the reversed digit list: a comma after every complete group of three digits
counted from the least significant end. -/
def commaGroupRev : List Char → List Char
  | a :: b :: c :: d :: rest => a :: b :: c :: ',' :: commaGroupRev (d :: rest)
  | l => l

/-- JavaScript `v.toLocaleString()` for an integral value `v` in the default
`en-US` locale: decimal digits with thousands separators. -/
def natToLocaleString (v : Nat) : String :=
  String.mk (commaGroupRev (Nat.toDigits 10 v).reverse).reverse

/-- Optional chaining `poolData[key]?.supply.toLocaleString()` interpolated in
a template literal: a missing (`null`/absent) entry interpolates as the string
`"undefined"`. -/
def optSupplyText (e : Option PoolEntry) : String :=
  match e with
  | some r => natToLocaleString r.supply
  | none => "undefined"

/-- Text content assigned to the overlay text node `poolQty` by
`handleSaveToPng`, following the source's `if/else if` chain over `poolType`
(`sprout`, then `orchard`, then `sapling`, else the empty string). -/
def buildPoolLabel (poolType : String) (poolData : String → Option PoolEntry) :
    String :=
  if poolType = PoolsType_sprout then
    optSupplyText (poolData "sproutSupply") ++ " ZEC in Sprout Pool"
  else if poolType = PoolsType_ord then
    optSupplyText (poolData "orchardSupply") ++ " ZEC in Orchard Pool"
  else if poolType = PoolsType_sap then
    optSupplyText (poolData "saplingSupply") ++ " ZEC in Sapling Pool"
  else ""

/-- Observable DOM and browser actions performed by `handleSaveToPng`, in
order. -/
inductive ExportAction where
  | appendOverlay
  | rasterize
  | triggerDownload (filename : String)
  | removeOverlay
  | logError
deriving Repr, DecidableEq

/-- Observable outcome of one `handleSaveToPng` call. -/
structure ExportOutcome where
  labelText : String
  overlayAttached : Bool
  downloadTriggered : Bool
  downloadName : Option String
  errorLogged : Bool
  events : List ExportAction
deriving Repr, DecidableEq

/-- The hook's `handleSaveToPng(poolType, poolData)` from `walletsConfig.ts`,
with the environment made explicit: `refPresent` is whether
`divChartRef.current` is non-null, `rasterOk` whether the awaited
`html2canvas` call succeeds (throws otherwise). The body builds the overlay
label, appends the overlay span to the chart node, and then on success
rasterizes, triggers the download `zcash-<poolType>-pool-chart.png` and
removes the span; on a rasterization error it only logs
(`console.error("Error saving chart: ", err)`) and returns, leaving the span
attached. -/
def handleSaveToPng (poolType : String) (poolData : String → Option PoolEntry)
    (refPresent rasterOk : Bool) : ExportOutcome :=
  let label := buildPoolLabel poolType poolData
  let appendEvents := if refPresent then [ExportAction.appendOverlay] else []
  let name := "zcash-" ++ poolType ++ "-pool-chart.png"
  if rasterOk then
    { labelText := label
      overlayAttached := false
      downloadTriggered := true
      downloadName := some name
      errorLogged := false
      events := appendEvents ++ [ExportAction.rasterize, ExportAction.triggerDownload name]
        ++ if refPresent then [ExportAction.removeOverlay] else [] }
  else
    { labelText := label
      overlayAttached := refPresent
      downloadTriggered := false
      downloadName := none
      errorLogged := true
      events := appendEvents ++ [ExportAction.rasterize, ExportAction.logError] }

/-- Default datum used only to phrase `List.getD` indexing in the proofs. -/
def defaultDatum : ShieldedAmountDatum := ⟨0, 0⟩

/-- Invariant of the d3 left-bisection loop on a monotone key list: with
enough fuel the result `r` lies in `[lo, hi]`, every key at an index in
`[lo, r)` is strictly below the probe, and every key at an index in `[r, hi)`
is at least the probe. -/
theorem bisectLoop_spec (a : List Int) (x : Int)
    (hmono : ∀ i j : Nat, i < j → j < a.length → a.getD i 0 ≤ a.getD j 0) :
    ∀ fuel lo hi : Nat, hi - lo ≤ fuel → lo ≤ hi → hi ≤ a.length →
      lo ≤ bisectLoop a x fuel lo hi ∧ bisectLoop a x fuel lo hi ≤ hi ∧
      (∀ j, lo ≤ j → j < bisectLoop a x fuel lo hi → a.getD j 0 < x) ∧
      (∀ j, bisectLoop a x fuel lo hi ≤ j → j < hi → x ≤ a.getD j 0) := by
  intro fuel
  induction fuel with
  | zero =>
    intro lo hi hfuel hle _
    have hEq : hi = lo := by omega
    subst hEq
    simp only [bisectLoop]
    exact ⟨Nat.le_refl _, Nat.le_refl _, fun j h1 h2 => by omega, fun j h1 h2 => by omega⟩
  | succ n ih =>
    intro lo hi hfuel hle hhi
    simp only [bisectLoop]
    by_cases hlh : lo < hi
    · simp only [if_pos hlh]
      by_cases hcmp : a.getD ((lo + hi) / 2) 0 < x
      · simp only [if_pos hcmp]
        obtain ⟨h1, h2, h3, h4⟩ := ih ((lo + hi) / 2 + 1) hi (by omega) (by omega) hhi
        refine ⟨by omega, h2, ?_, h4⟩
        intro j hj1 hj2
        by_cases hjm : (lo + hi) / 2 + 1 ≤ j
        · exact h3 j hjm hj2
        · rcases Nat.lt_or_ge j ((lo + hi) / 2) with h | h
          · exact lt_of_le_of_lt (hmono j ((lo + hi) / 2) h (by omega)) hcmp
          · have hEq : j = (lo + hi) / 2 := by omega
            rw [hEq]; exact hcmp
      · simp only [if_neg hcmp]
        push_neg at hcmp
        obtain ⟨h1, h2, h3, h4⟩ := ih lo ((lo + hi) / 2) (by omega) (by omega) (by omega)
        refine ⟨h1, by omega, h3, ?_⟩
        intro j hj1 hj2
        rcases Nat.lt_or_ge j ((lo + hi) / 2) with h | h
        · exact h4 j hj1 h
        · rcases Nat.lt_or_ge ((lo + hi) / 2) j with h' | h'
          · exact le_trans hcmp (hmono ((lo + hi) / 2) j h' (by omega))
          · have hEq : j = (lo + hi) / 2 := by omega
            rw [hEq]; exact hcmp
    · simp only [if_neg hlh]
      exact ⟨Nat.le_refl _, hle, fun j h1 h2 => by omega, fun j h1 h2 => by omega⟩

/-- Helper: in-range `List.get?` produces the `getD` value. -/
theorem get?_eq_some_getD {α : Type} (l : List α) (j : Nat) (d : α)
    (h : j < l.length) : l.get? j = some (l.getD j d) := by
  rw [List.get?_eq_get h, List.getD_eq_get l d h]

/-- Helper: `getD` of the mapped close list is the close of `getD`. -/
theorem closes_getD (l : List ShieldedAmountDatum) (j : Nat) (h : j < l.length) :
    (l.map (·.close)).getD j 0 = (l.getD j defaultDatum).close := by
  have h' : j < (l.map (·.close)).length := by simpa using h
  rw [List.getD_eq_get _ _ h', List.getD_eq_get _ _ h, List.get_map]

/-- Helper: strict monotonicity of the dates of a strictly sorted series, in
`getD` form. -/
theorem sorted_close_lt (l : List ShieldedAmountDatum)
    (hs : l.Pairwise (fun a b => a.close < b.close)) :
    ∀ i j : Nat, i < j → j < l.length →
      (l.getD i defaultDatum).close < (l.getD j defaultDatum).close := by
  intro i j hij hj
  have hi : i < l.length := lt_trans hij hj
  rw [List.getD_eq_get _ _ hi, List.getD_eq_get _ _ hj]
  exact List.pairwise_iff_get.mp hs ⟨i, hi⟩ ⟨j, hj⟩ hij

/-- Characterization of `bisectDate` on a strictly sorted non-empty series:
the returned insertion index `r` lies in `[1, length]`, all dates at indices
in `[1, r)` are before the probe, and all dates at indices in `[r, length)`
are at or after it. -/
theorem bisectDate_spec (l : List ShieldedAmountDatum) (x0 : Int)
    (hs : l.Pairwise (fun a b => a.close < b.close)) (hne : 0 < l.length) :
    1 ≤ bisectDate l x0 ∧ bisectDate l x0 ≤ l.length ∧
    (∀ j, 1 ≤ j → j < bisectDate l x0 → (l.getD j defaultDatum).close < x0) ∧
    (∀ j, bisectDate l x0 ≤ j → j < l.length → x0 ≤ (l.getD j defaultDatum).close) := by
  have hlen : (l.map (·.close)).length = l.length := by simp
  have hmono : ∀ i j : Nat, i < j → j < (l.map (·.close)).length →
      (l.map (·.close)).getD i 0 ≤ (l.map (·.close)).getD j 0 := by
    intro i j hij hj
    rw [hlen] at hj
    rw [closes_getD l i (lt_trans hij hj), closes_getD l j hj]
    exact le_of_lt (sorted_close_lt l hs i j hij hj)
  have hspec := bisectLoop_spec (l.map (·.close)) x0 hmono (l.length - 1) 1 l.length
    (by omega) (by omega) (by rw [hlen])
  rw [show bisectLoop (l.map (·.close)) x0 (l.length - 1) 1 l.length
      = bisectDate l x0 from rfl] at hspec
  obtain ⟨h1, h2, h3, h4⟩ := hspec
  refine ⟨h1, h2, ?_, ?_⟩
  · intro j hj1 hj2
    have hjl : j < l.length := lt_of_lt_of_le hj2 h2
    have := h3 j hj1 hj2
    rwa [closes_getD l j hjl] at this
  · intro j hj1 hj2
    have := h4 j hj1 hj2
    rwa [closes_getD l j hj2] at this

/-- Helper: an in-range `getD` value is a member of the list. -/
theorem getD_mem_of_lt {α : Type} (l : List α) (j : Nat) (d : α)
    (h : j < l.length) : l.getD j d ∈ l := by
  rw [List.getD_eq_getElem l d h]
  exact List.getElem_mem h

/-- Helper: on a strictly sorted series, the datum selected by the tooltip
hit-test is in the series and minimizes the absolute time distance to the
probe date, with ties going to the earlier (left) neighbor. Shared core of
the tooltip claims. -/
theorem handleTooltip_min_core (l : List ShieldedAmountDatum) (x0 : Int)
    (d : ShieldedAmountDatum)
    (hs : l.Pairwise (fun a b => a.close < b.close))
    (hres : handleTooltip l x0 = some d) :
    d ∈ l ∧ ∀ e ∈ l, |x0 - d.close| ≤ |x0 - e.close| ∧
      (|x0 - d.close| = |x0 - e.close| → d.close ≤ e.close) := by
  have hne : 0 < l.length := by
    rcases l with _ | ⟨a, l'⟩
    · simp [handleTooltip, bisectDate, bisectLeft, bisectLoop] at hres
    · simp
  obtain ⟨hr1, hr2, hlow, hhigh⟩ := bisectDate_spec l x0 hs hne
  have hmono := sorted_close_lt l hs
  have hr1n : bisectDate l x0 - 1 < l.length := by omega
  rw [handleTooltip, get?_eq_some_getD l (bisectDate l x0 - 1) defaultDatum hr1n] at hres
  rcases Nat.lt_or_ge (bisectDate l x0) l.length with hrn | hrn
  · -- interior case: both neighbors exist
    rw [get?_eq_some_getD l (bisectDate l x0) defaultDatum hrn] at hres
    simp only [Option.some.injEq] at hres
    have hB : x0 ≤ (l.getD (bisectDate l x0) defaultDatum).close :=
      hhigh (bisectDate l x0) (Nat.le_refl _) hrn
    have hadj : (l.getD (bisectDate l x0 - 1) defaultDatum).close
        < (l.getD (bisectDate l x0) defaultDatum).close :=
      hmono (bisectDate l x0 - 1) (bisectDate l x0) (by omega) hrn
    have hmem : d ∈ l := by
      rw [← hres]
      split
      · exact getD_mem_of_lt l _ defaultDatum hrn
      · exact getD_mem_of_lt l _ defaultDatum hr1n
    refine ⟨hmem, ?_⟩
    intro e he
    obtain ⟨⟨j, hj⟩, rfl⟩ := List.mem_iff_get.mp he
    rw [← List.getD_eq_get l defaultDatum hj]
    rcases Nat.lt_trichotomy j (bisectDate l x0 - 1) with hcase | hcase | hcase
    · -- j strictly left of the left neighbor: strictly farther
      have hjlt : (l.getD j defaultDatum).close
          < (l.getD (bisectDate l x0 - 1) defaultDatum).close :=
        hmono j (bisectDate l x0 - 1) hcase hr1n
      have hjx : (l.getD (bisectDate l x0 - 1) defaultDatum).close < x0 :=
        hlow (bisectDate l x0 - 1) (by omega) (by omega)
      rw [← hres]
      split <;> rename_i hif <;>
        refine ⟨?_, ?_⟩ <;> simp only [Int.abs_eq_natAbs] <;> intros <;> omega
    · -- j is the left neighbor
      rw [hcase, ← hres]
      split <;> rename_i hif <;>
        refine ⟨?_, ?_⟩ <;> simp only [Int.abs_eq_natAbs] <;> intros <;> omega
    · -- j at or right of the insertion index
      have hjx : x0 ≤ (l.getD j defaultDatum).close := hhigh j (by omega) hj
      rcases Nat.lt_or_ge (bisectDate l x0) j with hcase' | hcase'
      · have hjgt : (l.getD (bisectDate l x0) defaultDatum).close
            < (l.getD j defaultDatum).close := hmono (bisectDate l x0) j hcase' hj
        rw [← hres]
        split <;> rename_i hif <;>
          refine ⟨?_, ?_⟩ <;> simp only [Int.abs_eq_natAbs] <;> intros <;> omega
      · have hEq : j = bisectDate l x0 := by omega
        rw [hEq, ← hres]
        split <;> rename_i hif <;>
          refine ⟨?_, ?_⟩ <;> simp only [Int.abs_eq_natAbs] <;> intros <;> omega
  · -- boundary case: the probe index is past the end, only the left
    -- neighbor exists and it is the last element
    rw [List.get?_eq_none.mpr hrn] at hres
    simp only [Option.some.injEq] at hres
    have hmem : d ∈ l := by rw [← hres]; exact getD_mem_of_lt l _ defaultDatum hr1n
    refine ⟨hmem, ?_⟩
    intro e he
    obtain ⟨⟨j, hj⟩, rfl⟩ := List.mem_iff_get.mp he
    rw [← List.getD_eq_get l defaultDatum hj]
    rcases Nat.lt_trichotomy j (bisectDate l x0 - 1) with hcase | hcase | hcase
    · have hjlt : (l.getD j defaultDatum).close
          < (l.getD (bisectDate l x0 - 1) defaultDatum).close :=
        hmono j (bisectDate l x0 - 1) hcase hr1n
      have hjx : (l.getD (bisectDate l x0 - 1) defaultDatum).close < x0 :=
        hlow (bisectDate l x0 - 1) (by omega) (by omega)
      rw [← hres]
      refine ⟨?_, ?_⟩ <;> simp only [Int.abs_eq_natAbs] <;> intros <;> omega
    · rw [hcase, ← hres]
      refine ⟨?_, ?_⟩ <;> simp only [Int.abs_eq_natAbs] <;> intros <;> omega
    · omega

/-- Helper: boundary behavior of the tooltip hit-test on a strictly sorted
non-empty series: a probe before the first observation selects the first
datum, a probe after the last observation selects the last datum. -/
theorem handleTooltip_boundary_core (l : List ShieldedAmountDatum) (x0 : Int)
    (hs : l.Pairwise (fun a b => a.close < b.close)) (hne : 0 < l.length) :
    (x0 < (l.getD 0 defaultDatum).close →
      handleTooltip l x0 = some (l.getD 0 defaultDatum)) ∧
    ((l.getD (l.length - 1) defaultDatum).close < x0 →
      handleTooltip l x0 = some (l.getD (l.length - 1) defaultDatum)) := by
  obtain ⟨hr1, hr2, hlow, hhigh⟩ := bisectDate_spec l x0 hs hne
  have hmono := sorted_close_lt l hs
  constructor
  · intro hx
    have hr : bisectDate l x0 = 1 := by
      by_contra hcon
      have h1 : (l.getD 1 defaultDatum).close < x0 := hlow 1 (Nat.le_refl _) (by omega)
      have h2 : (l.getD 0 defaultDatum).close < (l.getD 1 defaultDatum).close :=
        hmono 0 1 (by omega) (by omega)
      omega
    rcases Nat.lt_or_ge 1 l.length with hlen | hlen
    · have hc01 : (l.getD 0 defaultDatum).close < (l.getD 1 defaultDatum).close :=
        hmono 0 1 (by omega) hlen
      rw [handleTooltip, hr]
      simp only [Nat.sub_self]
      rw [get?_eq_some_getD l 0 defaultDatum (by omega),
        get?_eq_some_getD l 1 defaultDatum hlen]
      dsimp only
      rw [if_neg (by omega)]
    · rw [handleTooltip, hr]
      simp only [Nat.sub_self]
      rw [get?_eq_some_getD l 0 defaultDatum (by omega),
        List.get?_eq_none.mpr (by omega)]
  · intro hx
    have hr : bisectDate l x0 = l.length := by
      by_contra hcon
      have h1 : x0 ≤ (l.getD (bisectDate l x0) defaultDatum).close :=
        hhigh _ (Nat.le_refl _) (by omega)
      rcases Nat.lt_or_ge (bisectDate l x0) (l.length - 1) with h | h
      · have h2 := hmono (bisectDate l x0) (l.length - 1) h (by omega)
        omega
      · have hEq : bisectDate l x0 = l.length - 1 := by omega
        rw [hEq] at h1
        omega
    rw [handleTooltip, hr,
      get?_eq_some_getD l (l.length - 1) defaultDatum (by omega),
      List.get?_eq_none.mpr (Nat.le_refl _)]

/-- Helper: the d3 `nice` loop only ever widens the upper endpoint, and an
exactly-zero lower endpoint is preserved exactly. -/
theorem d3niceLoop_bounds :
    ∀ (fuel : Nat) (start stop count : ℚ) (prestep : Option ℚ) (s t : ℚ),
      d3niceLoop fuel start stop count prestep = some (s, t) →
      stop ≤ t ∧ (start = 0 → s = 0) := by
  intro fuel
  induction fuel with
  | zero => intro start stop count prestep s t h; simp [d3niceLoop] at h
  | succ n ih =>
    intro start stop count prestep s t h
    rw [d3niceLoop] at h
    by_cases h1 : some (tickIncrement start stop count) = prestep
    · rw [if_pos h1] at h
      obtain ⟨rfl, rfl⟩ := Prod.mk.injEq .. ▸ Option.some.injEq .. ▸ h
      exact ⟨le_refl _, fun h0 => h0⟩
    · rw [if_neg h1] at h
      by_cases h2 : 0 < tickIncrement start stop count
      · rw [if_pos h2] at h
        obtain ⟨ht, hs0⟩ := ih _ _ _ _ _ _ h
        refine ⟨le_trans ?_ ht, fun h0 => hs0 ?_⟩
        · calc stop = stop / tickIncrement start stop count
                * tickIncrement start stop count := by field_simp
            _ ≤ (⌈stop / tickIncrement start stop count⌉ : ℚ)
                * tickIncrement start stop count :=
              mul_le_mul_of_nonneg_right (Int.le_ceil _) (le_of_lt h2)
        · rw [h0]
          simp
      · rw [if_neg h2] at h
        by_cases h3 : tickIncrement start stop count < 0
        · rw [if_pos h3] at h
          obtain ⟨ht, hs0⟩ := ih _ _ _ _ _ _ h
          refine ⟨le_trans ?_ ht, fun h0 => hs0 ?_⟩
          · rw [le_div_iff_of_neg h3]
            exact Int.floor_le _
          · rw [h0]
            simp
        · rw [if_neg h3] at h
          simp at h

/-- C1, counterexample: for the two-point series with closes 01/01/2020 and
01/01/2021 (epoch milliseconds 1577836800000 and 1609459200000, an exact-
millisecond midpoint since 2020 has an even number of days), a query at the
exact midpoint 1593648000000 selects the FIRST point, not the second: the
source tie-break `x0 - getDate(d0) > getDate(d1) - x0 ? d1 : d0` uses a
strict comparison, so the equidistant case falls to `d0`, the earlier
neighbor. This refutes the claim's tie-to-the-right rule and its concrete
midpoint example. -/
theorem handleTooltip_midpoint_selects_first :
    handleTooltip [⟨1577836800000, 10⟩, ⟨1609459200000, 20⟩] 1593648000000
        = some ⟨1577836800000, 10⟩ ∧
      handleTooltip [⟨1577836800000, 10⟩, ⟨1609459200000, 20⟩] 1593648000000
        ≠ some ⟨1609459200000, 20⟩ := by
  constructor <;> decide

/-- C1, amended: for every strictly sorted series and every queried pointer
date, the tooltip hit-test selects a datum of the series minimizing the
absolute time distance to the queried date, and when the two neighboring
candidates are equidistant it selects the earlier (left) neighbor; in
particular, for the two-point series of the claim a query at the exact
midpoint selects the first point. -/
theorem handleTooltip_nearest_tie_left (l : List ShieldedAmountDatum) (x0 : Int)
    (d : ShieldedAmountDatum)
    (hs : l.Pairwise (fun a b => a.close < b.close))
    (hres : handleTooltip l x0 = some d) :
    d ∈ l ∧ ∀ e ∈ l, |x0 - d.close| ≤ |x0 - e.close| ∧
      (|x0 - d.close| = |x0 - e.close| → d.close ≤ e.close) :=
  handleTooltip_min_core l x0 d hs hres

/-- Witness for C1: the amended theorem applied to the claim's two-point
series at the exact midpoint, which the hit-test resolves to the first
point. -/
theorem handleTooltip_nearest_tie_left_witness :
    ([⟨1577836800000, 10⟩, ⟨1609459200000, 20⟩] : List ShieldedAmountDatum).Pairwise
        (fun a b => a.close < b.close) ∧
      handleTooltip [⟨1577836800000, 10⟩, ⟨1609459200000, 20⟩] 1593648000000
        = some ⟨1577836800000, 10⟩ ∧
      ((⟨1577836800000, 10⟩ : ShieldedAmountDatum)
          ∈ ([⟨1577836800000, 10⟩, ⟨1609459200000, 20⟩] : List ShieldedAmountDatum) ∧
        ∀ e ∈ ([⟨1577836800000, 10⟩, ⟨1609459200000, 20⟩] : List ShieldedAmountDatum),
          |1593648000000 - (⟨1577836800000, (10 : ℚ)⟩ : ShieldedAmountDatum).close|
              ≤ |1593648000000 - e.close| ∧
            (|1593648000000 - (⟨1577836800000, (10 : ℚ)⟩ : ShieldedAmountDatum).close|
                = |1593648000000 - e.close| →
              (⟨1577836800000, (10 : ℚ)⟩ : ShieldedAmountDatum).close ≤ e.close)) :=
  ⟨by decide, by decide,
    handleTooltip_nearest_tie_left _ 1593648000000 _ (by decide) (by decide)⟩

/-- C2, counterexample: in the state reached when the one-shot fetch fails
(chartData still empty, isLoading reset, error set), the component renders
the loading branch, not the static error indicator. -/
theorem renderBranch_after_failure_not_error :
    renderBranch (resolveFailure (runEffect initialChartState) "HTTP error! status: 404")
        = RenderBranch.loading ∧
      renderBranch (resolveFailure (runEffect initialChartState) "HTTP error! status: 404")
        ≠ RenderBranch.error := by
  constructor <;> decide

/-- C2, amended: in every state in which the fetch has completed with an
error and no data was stored (chartData empty), the render output is the
loading branch — the error branch is unreachable there because the
empty-data/loading check precedes the error check. -/
theorem renderBranch_error_empty_is_loading (s : ChartState)
    (h : s.chartData = []) : renderBranch s = RenderBranch.loading := by
  simp [renderBranch, h]

/-- Witness for C2: the amended theorem applied to the concrete post-failure
state. -/
theorem renderBranch_error_empty_is_loading_witness :
    (resolveFailure (runEffect initialChartState) "HTTP error! status: 404").chartData = [] ∧
      renderBranch (resolveFailure (runEffect initialChartState) "HTTP error! status: 404")
        = RenderBranch.loading :=
  ⟨by decide, renderBranch_error_empty_is_loading _ (by decide)⟩

/-- C3, counterexample: after the first fetch completes with an error, the
data-loading effect re-runs (its dependencies changed), its guards pass
(isLoading was reset by the finally-handler, chartData is still empty), and
it issues a second network request: the fetch counter goes from 1 to 2. This
refutes the claim that no further request is ever issued after a failure. -/
theorem runEffect_after_failure_fetches_again :
    (resolveFailure (runEffect initialChartState) "HTTP error! status: 500").fetchCount = 1 ∧
      (runEffect (resolveFailure (runEffect initialChartState)
          "HTTP error! status: 500")).fetchCount = 2 := by
  constructor <;> decide

/-- C3, amended: after a fetch failure with chartData still empty, the next
run of the data-loading effect always issues another network request (the
component retries indefinitely on persistent failure; the spec itself flags
this guard as ambiguous). -/
theorem runEffect_retries_after_failure (s : ChartState) (e : String)
    (h : s.chartData = []) :
    (runEffect (resolveFailure s e)).fetchCount = s.fetchCount + 1 := by
  simp [runEffect, resolveFailure, h]

/-- Witness for C3: the amended theorem applied to the initial state. -/
theorem runEffect_retries_after_failure_witness :
    initialChartState.chartData = [] ∧
      (runEffect (resolveFailure initialChartState "err")).fetchCount
        = initialChartState.fetchCount + 1 :=
  ⟨by decide, runEffect_retries_after_failure _ "err" (by decide)⟩

/-- C4: for every state with chartData empty — whatever the loading flag,
error value or request count — the render output is the loading indicator and
never the rendered chart. -/
theorem renderBranch_empty_always_loading (b : Bool) (e : Option String) (k : Nat) :
    renderBranch ⟨[], b, e, k⟩ = RenderBranch.loading ∧
      renderBranch ⟨[], b, e, k⟩ ≠ RenderBranch.chart := by
  constructor <;> simp [renderBranch]

/-- C5: for every strictly sorted non-empty series, a queried pointer date
before the first observation selects the first datum, and one after the last
observation selects the last datum. -/
theorem handleTooltip_boundary (l : List ShieldedAmountDatum) (x0 : Int)
    (hs : l.Pairwise (fun a b => a.close < b.close)) (hne : 0 < l.length) :
    (x0 < (l.getD 0 defaultDatum).close →
      handleTooltip l x0 = some (l.getD 0 defaultDatum)) ∧
    ((l.getD (l.length - 1) defaultDatum).close < x0 →
      handleTooltip l x0 = some (l.getD (l.length - 1) defaultDatum)) :=
  handleTooltip_boundary_core l x0 hs hne

/-- Witness for C5: both boundary cases exercised on a concrete two-point
series. -/
theorem handleTooltip_boundary_witness :
    ([⟨0, 1⟩, ⟨10, 2⟩] : List ShieldedAmountDatum).Pairwise
        (fun a b => a.close < b.close) ∧
      0 < ([⟨0, 1⟩, ⟨10, 2⟩] : List ShieldedAmountDatum).length ∧
      handleTooltip [⟨0, 1⟩, ⟨10, 2⟩] (-5) = some ⟨0, 1⟩ ∧
      handleTooltip [⟨0, 1⟩, ⟨10, 2⟩] 99 = some ⟨10, 2⟩ := by
  refine ⟨by decide, by decide, ?_, ?_⟩
  · exact (handleTooltip_boundary [⟨0, 1⟩, ⟨10, 2⟩] (-5) (by decide) (by decide)).1
      (by decide)
  · exact (handleTooltip_boundary [⟨0, 1⟩, ⟨10, 2⟩] 99 (by decide) (by decide)).2
      (by decide)

/-- C9: a series of length exactly 1 is safe: the component reaches the chart
branch after storing it, the degenerate date-scale domain hits d3's
constant-one-half guard (no division by zero) and places the single date at
the horizontal midpoint of the range, and the tooltip lookup returns the
single datum for every query (no out-of-bounds access). -/
theorem singleton_series_safe (d : ShieldedAmountDatum) (ml iw : ℚ) (x0 : Int) :
    renderBranch (resolveSuccess (runEffect initialChartState) [d]) = RenderBranch.chart ∧
      dateScaleApply [d] ml iw d.close = some (ml + iw / 2) ∧
      handleTooltip [d] x0 = some d := by
  refine ⟨by simp [renderBranch, resolveSuccess, runEffect, initialChartState], ?_, ?_⟩
  · simp [dateScaleApply, extentDates, continuousScaleApply, normalizeApply]
    ring
  · simp [handleTooltip, bisectDate, bisectLeft, bisectLoop]

/-- C6: for every loaded series and inner chart height whose raw upper bound
`max(supply) + height/3` is nonnegative (so the two-point domain is in
ascending order, as for any real series), the nice-rounded value-scale domain
keeps the lower bound exactly 0 and has upper bound at least
`max(supply) + height/3`. -/
theorem shieldedValueScaleDomain_spec (chartData : List ShieldedAmountDatum)
    (innerHeight : ℚ)
    (h : 0 ≤ maxSupplyOrZero chartData + innerHeight / 3) :
    (shieldedValueScaleDomain chartData innerHeight).1 = 0 ∧
      maxSupplyOrZero chartData + innerHeight / 3
        ≤ (shieldedValueScaleDomain chartData innerHeight).2 := by
  unfold shieldedValueScaleDomain d3nice
  rw [if_neg (not_lt.mpr h)]
  rcases hloop : d3niceLoop 10 0 (maxSupplyOrZero chartData + innerHeight / 3) 10 none
    with _ | ⟨s, t⟩
  · simp [hloop]
  · obtain ⟨ht, hs0⟩ := d3niceLoop_bounds 10 0 _ 10 none s t hloop
    simp [hloop, hs0 rfl, ht]

/-- Witness for C6: the theorem applied to a singleton zero-supply series at
inner height 0, where the raw upper bound is 0 and the nice loop leaves the
domain unchanged. -/
theorem shieldedValueScaleDomain_spec_witness :
    0 ≤ maxSupplyOrZero [⟨0, 0⟩] + 0 / 3 ∧
      ((shieldedValueScaleDomain [⟨0, 0⟩] 0).1 = 0 ∧
        maxSupplyOrZero [⟨0, 0⟩] + 0 / 3 ≤ (shieldedValueScaleDomain [⟨0, 0⟩] 0).2) :=
  ⟨by simp [maxSupplyOrZero], shieldedValueScaleDomain_spec _ _ (by simp [maxSupplyOrZero])⟩

/-- C7: with the chart node present, the overlay span is removed from the DOM
exactly on the success path: on success the event trace is append, rasterize,
download, remove and the span ends detached; on a rasterization error the
trace is append, rasterize, log — the error handler only logs, triggers no
download, and leaves the span attached. -/
theorem handleSaveToPng_overlay_cleanup (poolType : String)
    (poolData : String → Option PoolEntry) :
    ((handleSaveToPng poolType poolData true true).overlayAttached = false ∧
      (handleSaveToPng poolType poolData true true).events
        = [ExportAction.appendOverlay, ExportAction.rasterize,
            ExportAction.triggerDownload ("zcash-" ++ poolType ++ "-pool-chart.png"),
            ExportAction.removeOverlay]) ∧
    ((handleSaveToPng poolType poolData true false).overlayAttached = true ∧
      (handleSaveToPng poolType poolData true false).downloadTriggered = false ∧
      (handleSaveToPng poolType poolData true false).errorLogged = true ∧
      (handleSaveToPng poolType poolData true false).events
        = [ExportAction.appendOverlay, ExportAction.rasterize, ExportAction.logError]) := by
  simp [handleSaveToPng]

/-- C8: for `poolType = "sprout"` with a present `sproutSupply` entry of
supply `v`, the overlay label text is `v.toLocaleString()` followed by
`" ZEC in Sprout Pool"` (locale thousands separators), on both the success
and the failure path and with or without the chart node. -/
theorem handleSaveToPng_sprout_label (poolData : String → Option PoolEntry)
    (ts : String) (v : Nat) (refPresent rasterOk : Bool)
    (h : poolData "sproutSupply" = some ⟨ts, v⟩) :
    (handleSaveToPng "sprout" poolData refPresent rasterOk).labelText
      = natToLocaleString v ++ " ZEC in Sprout Pool" := by
  cases rasterOk <;>
    simp [handleSaveToPng, buildPoolLabel, PoolsType_sprout, h, optSupplyText]

/-- Witness for C8: a concrete balances record with a sprout supply of
1234567 ZEC produces the label "1,234,567 ZEC in Sprout Pool". -/
theorem handleSaveToPng_sprout_label_witness :
    (fun k => if k = "sproutSupply" then some (⟨"2024-01-01", 1234567⟩ : PoolEntry)
        else none) "sproutSupply" = some (⟨"2024-01-01", 1234567⟩ : PoolEntry) ∧
      (handleSaveToPng "sprout"
          (fun k => if k = "sproutSupply" then some ⟨"2024-01-01", 1234567⟩ else none)
          true true).labelText
        = natToLocaleString 1234567 ++ " ZEC in Sprout Pool" :=
  ⟨by decide, handleSaveToPng_sprout_label _ "2024-01-01" 1234567 true true (by decide)⟩

/-- C10: for each of the three shielded pool types, a null or absent
corresponding supply entry makes the optional chaining evaluate to
`undefined`, which the template literal interpolates as the string
"undefined": the overlay label becomes "undefined ZEC in <Pool> Pool", not
the empty string. -/
theorem handleSaveToPng_missing_supply_undefined
    (poolData : String → Option PoolEntry) (refPresent rasterOk : Bool) :
    (poolData "sproutSupply" = none →
      (handleSaveToPng "sprout" poolData refPresent rasterOk).labelText
        = "undefined ZEC in Sprout Pool") ∧
    (poolData "orchardSupply" = none →
      (handleSaveToPng "orchard" poolData refPresent rasterOk).labelText
        = "undefined ZEC in Orchard Pool") ∧
    (poolData "saplingSupply" = none →
      (handleSaveToPng "sapling" poolData refPresent rasterOk).labelText
        = "undefined ZEC in Sapling Pool") := by
  refine ⟨fun h => ?_, fun h => ?_, fun h => ?_⟩ <;>
    cases rasterOk <;>
    simp [handleSaveToPng, buildPoolLabel, PoolsType_sprout, PoolsType_ord,
      PoolsType_sap, optSupplyText, h]

/-- Witness for C10: the all-absent balances record produces the
"undefined"-prefixed sprout label. -/
theorem handleSaveToPng_missing_supply_undefined_witness :
    ((fun _ => none) : String → Option PoolEntry) "sproutSupply" = none ∧
      (handleSaveToPng "sprout" (fun _ => none) true true).labelText
        = "undefined ZEC in Sprout Pool" :=
  ⟨rfl, (handleSaveToPng_missing_supply_undefined (fun _ => none) true true).1 rfl⟩

